import Mathlib

/-!
Verification development for the tide-table scraping service of the
`tabua-mare` repository (`src/services/tabua-de-mares.ts`).

The service is embedded shallowly:

* string-level runtime helpers of the JavaScript host (`trim`, `startsWith`,
  `replace`, `parseInt`, the regular expressions used by the source) are
  modelled as executable functions over `String.data`;
* the DOM subset the service queries is modelled by record types
  (`Cell`, `Row`, `Tbody`, `Table`, `Document`) whose fields hold exactly the
  results of the `querySelector` calls the source performs;
* the network is modelled by a `FetchOutcome` value (transport error or an
  HTTP response carrying a status and the parsed document), so that
  `getTideData` becomes a pure function of its inputs.

Every definition is translated from the TypeScript source; definitions whose
doc comment starts with `Modelled from the spec:` instead follow the
specification's words and exist only to be compared with the code.
-/

/-! ## Character classes used by the source's regular expressions -/

/-- Character class of JavaScript `\s` (also the set trimmed by
`String.prototype.trim`): space, tab, line terminators, NBSP, BOM and the
Unicode space separators. -/
def isJsSpace (c : Char) : Bool :=
  decide (c.toNat = 32 ∨ (9 ≤ c.toNat ∧ c.toNat ≤ 13) ∨ c.toNat = 160 ∨
    c.toNat = 5760 ∨ (8192 ≤ c.toNat ∧ c.toNat ≤ 8202) ∨ c.toNat = 8232 ∨
    c.toNat = 8233 ∨ c.toNat = 8239 ∨ c.toNat = 8287 ∨ c.toNat = 12288 ∨
    c.toNat = 65279)

/-- ASCII whitespace, the separator set used by DOM `classList`. -/
def isAsciiWs (c : Char) : Bool :=
  decide (c.toNat = 32 ∨ c.toNat = 9 ∨ c.toNat = 10 ∨ c.toNat = 12 ∨ c.toNat = 13)

/-- The regular-expression class `[0-9]` (JavaScript `\d`). -/
def digitB (c : Char) : Bool :=
  decide (48 ≤ c.toNat ∧ c.toNat ≤ 57)

/-- The class `[a-z]` of the slug-cleaning regular expression. -/
def lowerAlpha (c : Char) : Bool :=
  decide (97 ≤ c.toNat ∧ c.toNat ≤ 122)

/-- Combining diacritical marks, the class `[̀-ͯ]` removed by
`normalizeToSlug`. -/
def isCombining (c : Char) : Bool :=
  decide (768 ≤ c.toNat ∧ c.toNat ≤ 879)

/-- Characters kept by the slug regular expression `[^a-z0-9\s-]` (the
source removes its complement). -/
def slugAllowed (c : Char) : Bool :=
  lowerAlpha c || digitB c || isJsSpace c || decide (c.toNat = 45)

/-- Characters that can appear in a finished slug: lowercase ASCII letters,
digits and the hyphen. -/
def isSlugChar (c : Char) : Bool :=
  lowerAlpha c || digitB c || decide (c.toNat = 45)

/-! ## JavaScript string runtime helpers -/

/-- `String.prototype.trim` on the character list. -/
def trimList (l : List Char) : List Char :=
  ((l.dropWhile isJsSpace).reverse.dropWhile isJsSpace).reverse

/-- `String.prototype.trim`. -/
def jsTrim (s : String) : String := ⟨trimList s.data⟩

/-- `s.startsWith(p)` of the JavaScript runtime. -/
def jsStartsWith (s p : String) : Bool := p.data.isPrefixOf s.data

/-- `replace(/\s+/g, rep)`: every maximal run of whitespace becomes the single
character `rep`.  Used with `'-'` by `normalizeToSlug` and with `' '` by the
coefficient cleanup. -/
def squashRuns (rep : Char) : List Char → List Char
  | [] => []
  | [c] => if isJsSpace c then [rep] else [c]
  | c :: d :: rest =>
    if isJsSpace c then
      (if isJsSpace d then squashRuns rep (d :: rest)
       else rep :: squashRuns rep (d :: rest))
    else c :: squashRuns rep (d :: rest)

/-- `replace(',', '.')`: a string pattern in JavaScript `replace` rewrites only
the first occurrence. -/
def replaceFirstCommaL : List Char → List Char
  | [] => []
  | c :: rest => if c = ',' then '.' :: rest else c :: replaceFirstCommaL rest

/-- `heightText.replace(',', '.')` of `extractTideEvent`. -/
def replaceFirstComma (s : String) : String := ⟨replaceFirstCommaL s.data⟩

/-- The anchored time test `/^\d{1,2}:\d{2}$/` of `extractTideEvent`. -/
def isHHMM (s : String) : Bool :=
  match s.data with
  | [a, b, c, d] => digitB a && decide (b = ':') && digitB c && digitB d
  | [a, b, c, d, e] => digitB a && digitB b && decide (c = ':') && digitB d && digitB e
  | _ => false

/-- The height test `/^[0-9,.]+$/` of `extractTideEvent`, minus the
nonemptiness which the source checks through truthiness. -/
def heightCharsOk (s : String) : Bool :=
  s.data.all (fun c => digitB c || decide (c = ',') || decide (c = '.'))

/-- One attempt of the unanchored search `/\d{1,2}:\d{2}/` at the current
position: the greedy two-digit hour is tried before the one-digit hour. -/
def hhmmAt (l : List Char) : Option (List Char) :=
  match l with
  | a :: b :: c :: d :: e :: _ =>
    if digitB a && digitB b && decide (c = ':') && digitB d && digitB e then
      some [a, b, c, d, e]
    else if digitB a && decide (b = ':') && digitB c && digitB d then
      some [a, b, c, d]
    else none
  | [a, b, c, d] =>
    if digitB a && decide (b = ':') && digitB c && digitB d then
      some [a, b, c, d]
    else none
  | _ => none

/-- Leftmost match of `/\d{1,2}:\d{2}/` (the sunrise/sunset extraction). -/
def findHHMM : List Char → Option (List Char)
  | [] => none
  | a :: rest =>
    match hhmmAt (a :: rest) with
    | some m => some m
    | none => findHHMM rest

/-- `text.match(/\d{1,2}:\d{2}/)?.[0] ?? null`. -/
def firstHHMM (s : String) : Option String := (findHHMM s.data).map (⟨·⟩)

/-- Numeric value of a digit run. -/
def digitsVal (l : List Char) : Nat :=
  l.foldl (fun a c => a * 10 + (c.toNat - 48)) 0

/-- Longest digit run at the front; `none` when there is no digit, matching
`parseInt` returning `NaN`. -/
def leadingDigitsVal (l : List Char) : Option Nat :=
  match l.takeWhile digitB with
  | [] => none
  | ds => some (digitsVal ds)

/-- `parseInt(s, 10)`: skip whitespace, optional sign, then the longest digit
run; `none` models `NaN`. -/
def parseIntB10 (s : String) : Option Int :=
  match s.data.dropWhile isJsSpace with
  | '-' :: rest => (leadingDigitsVal rest).map (fun n => -(n : Int))
  | '+' :: rest => (leadingDigitsVal rest).map (fun n => (n : Int))
  | l => (leadingDigitsVal l).map (fun n => (n : Int))

/-- Token split on ASCII whitespace, accumulator-based. -/
def splitWsAux : List Char → List Char → List (List Char)
  | [], acc => if acc = [] then [] else [acc.reverse]
  | c :: rest, acc =>
    if isAsciiWs c then
      (if acc = [] then splitWsAux rest [] else acc.reverse :: splitWsAux rest [])
    else splitWsAux rest (c :: acc)

/-- DOM `classList` of a `class` attribute value. -/
def classTokens (s : String) : List String :=
  (splitWsAux s.data []).map (⟨·⟩)

/-! ## The slug normalizer (`normalizeToSlug`, source lines 65–74) -/

/-- `String.prototype.toLowerCase`, modelled on Basic Latin and Latin-1
(uppercase `A`–`Z` and `À`–`Þ` except `×` map down by 32); identity
elsewhere, which is accurate for every character the slug pipeline keeps. -/
def jsCharLower (c : Char) : Char :=
  if 65 ≤ c.toNat ∧ c.toNat ≤ 90 then Char.ofNat (c.toNat + 32)
  else if 192 ≤ c.toNat ∧ c.toNat ≤ 222 ∧ c.toNat ≠ 215 then Char.ofNat (c.toNat + 32)
  else c

/-- `String.prototype.normalize("NFD")` restricted to the lowercase Latin-1
precomposed letters (canonical NFD is the identity below U+00C0, and
`toLowerCase` runs first in the source, so only lowercase letters reach this
step with a decomposition). -/
def nfdChar (c : Char) : List Char :=
  if c.toNat < 192 then [c]
  else
    match c.toNat with
    | 224 => [Char.ofNat 97, Char.ofNat 768]
    | 225 => [Char.ofNat 97, Char.ofNat 769]
    | 226 => [Char.ofNat 97, Char.ofNat 770]
    | 227 => [Char.ofNat 97, Char.ofNat 771]
    | 228 => [Char.ofNat 97, Char.ofNat 776]
    | 229 => [Char.ofNat 97, Char.ofNat 778]
    | 231 => [Char.ofNat 99, Char.ofNat 807]
    | 232 => [Char.ofNat 101, Char.ofNat 768]
    | 233 => [Char.ofNat 101, Char.ofNat 769]
    | 234 => [Char.ofNat 101, Char.ofNat 770]
    | 235 => [Char.ofNat 101, Char.ofNat 776]
    | 236 => [Char.ofNat 105, Char.ofNat 768]
    | 237 => [Char.ofNat 105, Char.ofNat 769]
    | 238 => [Char.ofNat 105, Char.ofNat 770]
    | 239 => [Char.ofNat 105, Char.ofNat 776]
    | 241 => [Char.ofNat 110, Char.ofNat 771]
    | 242 => [Char.ofNat 111, Char.ofNat 768]
    | 243 => [Char.ofNat 111, Char.ofNat 769]
    | 244 => [Char.ofNat 111, Char.ofNat 770]
    | 245 => [Char.ofNat 111, Char.ofNat 771]
    | 246 => [Char.ofNat 111, Char.ofNat 776]
    | 249 => [Char.ofNat 117, Char.ofNat 768]
    | 250 => [Char.ofNat 117, Char.ofNat 769]
    | 251 => [Char.ofNat 117, Char.ofNat 770]
    | 252 => [Char.ofNat 117, Char.ofNat 776]
    | 253 => [Char.ofNat 121, Char.ofNat 769]
    | 255 => [Char.ofNat 121, Char.ofNat 776]
    | _ => [c]

/-- Source `normalizeToSlug`: guard on empty input, lowercase, NFD, strip
combining marks, remove characters outside `[a-z0-9\s-]`, trim, replace
whitespace runs with hyphens. -/
def normalizeToSlug (input : String) : String :=
  if input = "" then ""
  else
    ⟨squashRuns '-' (trimList
      ((((input.data.map jsCharLower).map nfdChar).flatten.filter
          (fun c => !isCombining c)).filter slugAllowed))⟩

/-! ## Data model (source lines 11–54) -/

/-- Source `TideEvent`. -/
structure TideEvent where
  time : String
  height : String
  deriving Repr, DecidableEq

/-- Source `DailyTideInfo`.  `dayOfMonth` is the JavaScript number produced by
`parseInt`. -/
structure DailyTideInfo where
  dayOfMonth : Int
  dayOfWeek : String
  moonPhaseIconSrc : Option String
  sunriseTime : Option String
  sunsetTime : Option String
  tide1 : Option TideEvent
  tide2 : Option TideEvent
  tide3 : Option TideEvent
  tide4 : Option TideEvent
  coefficient : Option String
  deriving Repr, DecidableEq

/-- Source `ScrapedPageData`. -/
structure ScrapedPageData where
  dailyTides : List DailyTideInfo
  pageContextText : Option String
  locationHeader : Option String
  deriving Repr, DecidableEq

/-! ## DOM model

A `Cell` records the result of every sub-query the source performs on a
`<td>`: each `Option String` field is the `textContent` of the corresponding
`querySelector` hit (`none` when the selector finds nothing).  `imgSrc` is
`querySelector('img')` followed by `getAttribute('src')` (outer `none`: no
image; inner `none`: image without the attribute).  `iconSpan` records whether
`span[class*="icon-hs"]` matches. -/

structure Cell where
  diaNumero : Option String := none
  diaDia : Option String := none
  imgSrc : Option (Option String) := none
  iconSpan : Bool := false
  salidaSol : Option String := none
  puestaSol : Option String := none
  mareaHora : Option String := none
  mareaAltura : Option String := none
  coefNumero : Option String := none
  deriving Repr, DecidableEq

/-- A `<tr>`: its `class` attribute and its `<td>` list. -/
structure Row where
  className : String := ""
  cells : List Cell := []
  deriving Repr, DecidableEq

/-- A `<tbody>` with its `<tr>` children. -/
structure Tbody where
  trs : List Row := []
  deriving Repr, DecidableEq

/-- The table resolved by the positional selector. -/
structure Table where
  tbody : Option Tbody := none
  deriving Repr, DecidableEq

/-- The parsed page.  `tideTable` is the result of the source's single
positional selector (line 154); `classMarkedTable` models what the
specification's class-based selector strategy would resolve — no definition
translated from the source ever reads it.  `h1Text` and `contextText` are the
`textContent` of the header and context `querySelector` hits. -/
structure Document where
  tideTable : Option Table := none
  classMarkedTable : Option Table := none
  h1Text : Option String := none
  contextText : Option String := none
  deriving Repr, DecidableEq

/-! ## Extraction (source lines 100–277) -/

def BASE_URL : String := "https://tabuademares.com"

/-- The `height` computation of `extractTideEvent` (lines 113–114): truthy
text passing `/^[0-9,.]+$/` gets its first comma normalized, anything else is
`null`. -/
def heightNorm : Option String → Option String
  | some h => if h ≠ "" ∧ heightCharsOk h then some (replaceFirstComma h) else none
  | none => none

/-- Source `extractTideEvent` (lines 105–126): the trimmed time and
height-number texts, the numeric filter on the height, the truthiness check
and the `HH:MM` validation. -/
def extractTideEvent : Option Cell → Option TideEvent
  | none => none
  | some c =>
    match c.mareaHora.map jsTrim, heightNorm (c.mareaAltura.map jsTrim) with
    | some t, some hgt =>
      if t ≠ "" then (if isHHMM t then some ⟨t, hgt⟩ else none) else none
    | _, _ => none

/-- Day-of-month parse of the row loop (lines 198–199): trimmed
`.tabla_mareas_dia_numero` text, empty or missing text gives `NaN`, otherwise
`parseInt(·, 10)`. -/
def parsedDay (cells : List Cell) : Option Int :=
  match (cells[0]?.bind Cell.diaNumero).map jsTrim with
  | none => none
  | some t => if t = "" then none else parseIntB10 t

/-- Weekday label (line 200). -/
def dayOfWeekText (cells : List Cell) : String :=
  ((cells[0]?.bind Cell.diaDia).map jsTrim).getD ""

/-- Line 204: `moonPhaseImg?.getAttribute('src') ?? null`. -/
def moonRaw (cells : List Cell) : Option String :=
  (cells[1]?.bind Cell.imgSrc).bind id

/-- Lines 206–208: a truthy source not starting with `"http"` gets the base
URL prefixed. -/
def moonAbs : Option String → Option String
  | some s => if s ≠ "" ∧ !jsStartsWith s "http" then some (BASE_URL ++ s) else some s
  | none => none

/-- Moon-phase source URL logic (lines 203–218): the `getAttribute` read, the
absolute-URL rewrite, and the icon-span fallback, which fires on a falsy value
and can only reset it to `null`. -/
def moonPhaseSrc (cells : List Cell) : Option String :=
  if (moonAbs (moonRaw cells) = none ∨ moonAbs (moonRaw cells) = some "") ∧
      (cells[1]?.map Cell.iconSpan).getD false = true then none
  else moonAbs (moonRaw cells)

/-- Sunrise/sunset extraction (lines 222–225): trimmed cell text, truthiness
guard, then the first `\d{1,2}:\d{2}` match. -/
def sunTime (sel : Cell → Option String) (cells : List Cell) : Option String :=
  match (cells[2]?.bind sel).map jsTrim with
  | none => none
  | some t => if t = "" then none else firstHHMM t

/-- Coefficient extraction (lines 235–236): whitespace runs collapsed to a
single space, then trimmed. -/
def coefficientText (cells : List Cell) : Option String :=
  (cells[7]?.bind Cell.coefNumero).map (fun s => jsTrim ⟨squashRuns ' ' s.data⟩)

/-- Secondary-row skip (line 184): `classList.contains` on the three
continuation-row class names. -/
def isSecondaryRow (row : Row) : Bool :=
  let cl := classTokens row.className
  cl.contains "tabla_mareas_fila_fondo1_2" ||
    cl.contains "tabla_mareas_fila_fondo2_2" ||
    cl.contains "tabla_mareas_fila_fondo3_22_2"

/-- Body of the `rows.forEach` loop (lines 182–257): `none` means the row
contributed nothing to `dailyTides`. -/
def processRow (row : Row) : Option DailyTideInfo :=
  if isSecondaryRow row then none
  else if row.cells.length < 8 then none
  else
    match parsedDay row.cells with
    | none => none
    | some d =>
      some
        { dayOfMonth := d
          dayOfWeek := dayOfWeekText row.cells
          moonPhaseIconSrc := moonPhaseSrc row.cells
          sunriseTime := sunTime Cell.salidaSol row.cells
          sunsetTime := sunTime Cell.puestaSol row.cells
          tide1 := extractTideEvent row.cells[3]?
          tide2 := extractTideEvent row.cells[4]?
          tide3 := extractTideEvent row.cells[5]?
          tide4 := extractTideEvent row.cells[6]?
          coefficient := coefficientText row.cells }

/-- Data-row selector `tr[class^="tabla_mareas_fila tabla_mareas_fila_fondo"]`
(line 175): a literal prefix test on the `class` attribute. -/
def filteredRows (b : Tbody) : List Row :=
  b.trs.filter (fun r => jsStartsWith r.className "tabla_mareas_fila tabla_mareas_fila_fondo")

/-- The data rows the locator resolves, when the table and its body exist. -/
def tableRows (doc : Document) : Option (List Row) :=
  (doc.tideTable.bind Table.tbody).map filteredRows

/-- The whole in-memory scrape of `getTideData` after a successful fetch
(lines 152–271).  The three early returns hard-code `pageContextText := none`;
only the full path scrapes the context element. -/
def scrapeDocument (doc : Document) : ScrapedPageData :=
  let locationHeader := doc.h1Text.map jsTrim
  match doc.tideTable with
  | none => { dailyTides := [], pageContextText := none, locationHeader }
  | some table =>
    match table.tbody with
    | none => { dailyTides := [], pageContextText := none, locationHeader }
    | some tb =>
      let rows := filteredRows tb
      if rows.length = 0 then
        { dailyTides := [], pageContextText := none, locationHeader }
      else
        { dailyTides := rows.filterMap processRow
          pageContextText := doc.contextText.map jsTrim
          locationHeader }

/-! ## Fetch layer (source lines 83–98 and 138–150, 273–276) -/

/-- The failure thrown by `fetchHtml`: the HTTP status when the response
arrived, and the offending URL (both appear in the thrown message). -/
structure FetchError where
  status : Option Nat
  url : String
  deriving Repr, DecidableEq

/-- What the network did: a transport failure, or a response with a status
code and (already parsed) body. -/
inductive FetchOutcome where
  | transportError (msg : String)
  | response (status : Nat) (doc : Document)

/-- `Response.ok` of the fetch API: status in the 2xx range. -/
def respOk (status : Nat) : Bool := 200 ≤ status && status < 300

/-- URL construction of `getTideData` (line 144). -/
def mkUrl (stateSlug citySlug : String) : String :=
  BASE_URL ++ "/br/" ++ stateSlug ++ "/" ++ citySlug

/-- Source `fetchHtml`: throws on transport failure and on `!response.ok`. -/
def fetchHtml (url : String) (o : FetchOutcome) : Except FetchError Document :=
  match o with
  | .transportError _ => .error { status := none, url }
  | .response st doc =>
    if respOk st then .ok doc else .error { status := some st, url }

/-- Does the outcome make `fetchHtml` fail? -/
def fetchFails (o : FetchOutcome) : Bool :=
  match o with
  | .transportError _ => true
  | .response st _ => !respOk st

/-- Source `getTideData`: empty-slug guard, fetch, then the pure scrape.  The
scraping code performs only null-safe accesses and cannot throw, so the
`catch` that returns `null` is reached exactly when `fetchHtml` throws. -/
def getTideData (stateSlug citySlug : String) (o : FetchOutcome) : Option ScrapedPageData :=
  if stateSlug = "" ∨ citySlug = "" then none
  else
    match fetchHtml (mkUrl stateSlug citySlug) o with
    | .error _ => none
    | .ok doc => some (scrapeDocument doc)

/-! ## Specification-side predicates -/

/-- Modelled from the spec: "height is a parseable non-negative decimal" —
at least one digit, only digits and at most one decimal point. -/
def spec_parseableNonNegDecimal (s : String) : Bool :=
  s.data.any digitB && s.data.all (fun c => digitB c || decide (c = '.')) &&
    decide ((s.data.filter (fun c => c = '.')).length ≤ 1)

/-! ## Helper lemmas: list identities -/

theorem map_id_of {α : Type} {f : α → α} :
    ∀ l : List α, (∀ c ∈ l, f c = c) → l.map f = l
  | [], _ => rfl
  | a :: l, h => by
    simp only [List.map_cons]
    rw [h a (List.mem_cons_self a l), map_id_of l (fun c hc => h c (List.mem_cons_of_mem a hc))]

theorem flatten_map_single {α : Type} {f : α → List α} :
    ∀ l : List α, (∀ c ∈ l, f c = [c]) → (l.map f).flatten = l
  | [], _ => rfl
  | a :: l, h => by
    simp only [List.map_cons, List.flatten_cons]
    rw [h a (List.mem_cons_self a l),
      flatten_map_single l (fun c hc => h c (List.mem_cons_of_mem a hc))]
    rfl

theorem filter_eq_self_of {α : Type} {p : α → Bool} :
    ∀ l : List α, (∀ c ∈ l, p c = true) → l.filter p = l
  | [], _ => rfl
  | a :: l, h => by
    simp only [List.filter_cons, h a (List.mem_cons_self a l), if_pos]
    rw [filter_eq_self_of l (fun c hc => h c (List.mem_cons_of_mem a hc))]

theorem dropWhile_eq_self_of {α : Type} {p : α → Bool} (l : List α)
    (h : ∀ c ∈ l, p c = false) : l.dropWhile p = l := by
  cases l with
  | nil => rfl
  | cons a l =>
    rw [List.dropWhile_cons, if_neg]
    simp [h a (List.mem_cons_self a l)]

theorem trimList_eq_self_of (l : List Char)
    (h : ∀ c ∈ l, isJsSpace c = false) : trimList l = l := by
  unfold trimList
  rw [dropWhile_eq_self_of l h, dropWhile_eq_self_of l.reverse
    (fun c hc => h c (List.mem_reverse.mp hc)), List.reverse_reverse]

theorem mem_trimList {c : Char} {l : List Char} (h : c ∈ trimList l) : c ∈ l := by
  unfold trimList at h
  rw [List.mem_reverse] at h
  have h1 := List.dropWhile_sublist (l := (l.dropWhile isJsSpace).reverse) (p := isJsSpace)
  have h2 := h1.mem h
  rw [List.mem_reverse] at h2
  exact (List.dropWhile_sublist (l := l) (p := isJsSpace)).mem h2

theorem squashRuns_eq_self (rep : Char) :
    ∀ l : List Char, (∀ c ∈ l, isJsSpace c = false) → squashRuns rep l = l
  | [], _ => rfl
  | [c], h => by
    simp [squashRuns, h c (List.mem_cons_self c [])]
  | c :: d :: rest, h => by
    rw [squashRuns, if_neg]
    · rw [squashRuns_eq_self rep (d :: rest)
        (fun x hx => h x (List.mem_cons_of_mem c hx))]
    · simp [h c (List.mem_cons_self c (d :: rest))]

theorem mem_squashRuns (rep : Char) :
    ∀ (l : List Char) (c : Char), c ∈ squashRuns rep l →
      c = rep ∨ (c ∈ l ∧ isJsSpace c = false)
  | [], c, h => by simp [squashRuns] at h
  | [a], c, h => by
    by_cases ha : isJsSpace a = true
    · simp [squashRuns, ha] at h
      exact Or.inl h
    · simp [squashRuns, ha] at h
      subst h
      simp_all
  | a :: d :: rest, c, h => by
    rw [squashRuns] at h
    by_cases ha : isJsSpace a = true
    · rw [if_pos ha] at h
      by_cases hd : isJsSpace d = true
      · rw [if_pos hd] at h
        rcases mem_squashRuns rep (d :: rest) c h with h1 | ⟨h1, h2⟩
        · exact Or.inl h1
        · exact Or.inr ⟨List.mem_cons_of_mem a h1, h2⟩
      · rw [if_neg hd] at h
        rcases List.mem_cons.mp h with h1 | h1
        · exact Or.inl h1
        · rcases mem_squashRuns rep (d :: rest) c h1 with h2 | ⟨h2, h3⟩
          · exact Or.inl h2
          · exact Or.inr ⟨List.mem_cons_of_mem a h2, h3⟩
    · rw [if_neg ha] at h
      rcases List.mem_cons.mp h with h1 | h1
      · subst h1
        refine Or.inr ⟨List.mem_cons_self c (d :: rest), ?_⟩
        simp_all
      · rcases mem_squashRuns rep (d :: rest) c h1 with h2 | ⟨h2, h3⟩
        · exact Or.inl h2
        · exact Or.inr ⟨List.mem_cons_of_mem a h2, h3⟩

/-! ## Helper lemmas: character classes -/

theorem jsCharLower_of_slugChar {c : Char} (h : isSlugChar c = true) :
    jsCharLower c = c := by
  simp only [isSlugChar, lowerAlpha, digitB, Bool.or_eq_true, decide_eq_true_eq] at h
  unfold jsCharLower
  rw [if_neg (by omega), if_neg (by omega)]

theorem nfdChar_of_slugChar {c : Char} (h : isSlugChar c = true) :
    nfdChar c = [c] := by
  simp only [isSlugChar, lowerAlpha, digitB, Bool.or_eq_true, decide_eq_true_eq] at h
  unfold nfdChar
  rw [if_pos (by omega)]

theorem not_combining_of_slugChar {c : Char} (h : isSlugChar c = true) :
    isCombining c = false := by
  simp only [isSlugChar, lowerAlpha, digitB, Bool.or_eq_true, decide_eq_true_eq] at h
  simp only [isCombining, decide_eq_false_iff_not]
  omega

theorem slugAllowed_of_slugChar {c : Char} (h : isSlugChar c = true) :
    slugAllowed c = true := by
  simp only [isSlugChar, Bool.or_eq_true] at h
  simp only [slugAllowed, Bool.or_eq_true]
  tauto

theorem not_space_of_slugChar {c : Char} (h : isSlugChar c = true) :
    isJsSpace c = false := by
  simp only [isSlugChar, lowerAlpha, digitB, Bool.or_eq_true, decide_eq_true_eq] at h
  simp only [isJsSpace, decide_eq_false_iff_not]
  omega

theorem slugChar_of_allowed_not_space {c : Char} (h1 : slugAllowed c = true)
    (h2 : isJsSpace c = false) : isSlugChar c = true := by
  simp only [slugAllowed, Bool.or_eq_true] at h1
  simp only [isSlugChar, Bool.or_eq_true]
  rcases h1 with ((h | h) | h) | h
  · exact Or.inl (Or.inl h)
  · exact Or.inl (Or.inr h)
  · rw [h] at h2; cases h2
  · exact Or.inr h

theorem not_space_of_digit {c : Char} (h : digitB c = true) :
    isJsSpace c = false := by
  simp only [digitB, decide_eq_true_eq] at h
  simp only [isJsSpace, decide_eq_false_iff_not]
  omega

theorem not_space_of_colon {c : Char} (h : c = ':') : isJsSpace c = false := by
  subst h; decide

/-! ## Helper lemmas: trimming fixed strings -/

theorem jsTrim_eq_self_of (s : String)
    (h : ∀ c ∈ s.data, isJsSpace c = false) : jsTrim s = s := by
  obtain ⟨l⟩ := s
  show (⟨trimList l⟩ : String) = ⟨l⟩
  rw [trimList_eq_self_of l h]

theorem no_space_of_isHHMM {s : String} (h : isHHMM s = true) :
    ∀ c ∈ s.data, isJsSpace c = false := by
  unfold isHHMM at h
  split at h
  · rename_i a b c d heq
    rw [heq]
    simp only [Bool.and_eq_true, decide_eq_true_eq] at h
    intro x hx
    simp only [List.mem_cons, List.not_mem_nil, or_false] at hx
    rcases hx with rfl | rfl | rfl | rfl
    · exact not_space_of_digit h.1.1.1
    · exact not_space_of_colon h.1.1.2
    · exact not_space_of_digit h.1.2
    · exact not_space_of_digit h.2
  · rename_i a b c d e heq
    rw [heq]
    simp only [Bool.and_eq_true, decide_eq_true_eq] at h
    intro x hx
    simp only [List.mem_cons, List.not_mem_nil, or_false] at hx
    rcases hx with rfl | rfl | rfl | rfl | rfl
    · exact not_space_of_digit h.1.1.1.1
    · exact not_space_of_digit h.1.1.1.2
    · exact not_space_of_colon h.1.1.2
    · exact not_space_of_digit h.1.2
    · exact not_space_of_digit h.2
  · cases h

theorem isHHMM_ne_empty {s : String} (h : isHHMM s = true) : s ≠ "" := by
  intro he
  subst he
  cases h

theorem no_space_of_heightCharsOk {s : String} (h : heightCharsOk s = true) :
    ∀ c ∈ s.data, isJsSpace c = false := by
  unfold heightCharsOk at h
  rw [List.all_eq_true] at h
  intro c hc
  have := h c hc
  simp only [digitB, Bool.or_eq_true, decide_eq_true_eq] at this
  simp only [isJsSpace, decide_eq_false_iff_not]
  rcases this with (h1 | h1) | h1
  · omega
  · subst h1; decide
  · subst h1; decide

/-! ## Helper lemmas: the slug pipeline -/

theorem slug_output_chars (x : String) :
    ∀ c ∈ (normalizeToSlug x).data, isSlugChar c = true := by
  unfold normalizeToSlug
  split
  · intro c hc
    simp at hc
  · intro c hc
    rcases mem_squashRuns '-' _ c hc with h | ⟨h1, h2⟩
    · subst h; decide
    · have h3 := mem_trimList h1
      rw [List.mem_filter] at h3
      exact slugChar_of_allowed_not_space h3.2 h2

theorem normalizeToSlug_fixed (y : String)
    (h : ∀ c ∈ y.data, isSlugChar c = true) : normalizeToSlug y = y := by
  unfold normalizeToSlug
  split
  · rename_i he
    exact he.symm
  · rw [map_id_of y.data (fun c hc => jsCharLower_of_slugChar (h c hc)),
      flatten_map_single y.data (fun c hc => nfdChar_of_slugChar (h c hc)),
      filter_eq_self_of y.data
        (fun c hc => by rw [not_combining_of_slugChar (h c hc)]; rfl),
      filter_eq_self_of y.data (fun c hc => slugAllowed_of_slugChar (h c hc)),
      trimList_eq_self_of y.data (fun c hc => not_space_of_slugChar (h c hc)),
      squashRuns_eq_self '-' y.data (fun c hc => not_space_of_slugChar (h c hc))]

/-! ## Helper lemmas: row emission -/

theorem exists_row_of_mem_dailyTides {doc : Document} {info : DailyTideInfo}
    (h : info ∈ (scrapeDocument doc).dailyTides) :
    ∃ row, processRow row = some info := by
  obtain ⟨tT, tC, tH, tX⟩ := doc
  unfold scrapeDocument at h
  rcases tT with _ | t
  · simp at h
  · rcases t with ⟨tb?⟩
    rcases tb? with _ | tb
    · simp at h
    · simp only at h
      by_cases hr : (filteredRows tb).length = 0
      · rw [if_pos hr] at h
        simp at h
      · rw [if_neg hr] at h
        simp only at h
        obtain ⟨row, _, hrow⟩ := List.mem_filterMap.mp h
        exact ⟨row, hrow⟩

theorem processRow_some_fields {row : Row} {info : DailyTideInfo}
    (h : processRow row = some info) :
    parsedDay row.cells = some info.dayOfMonth ∧
      info.moonPhaseIconSrc = moonPhaseSrc row.cells := by
  unfold processRow at h
  split_ifs at h
  split at h
  · cases h
  · rename_i d hd
    rw [Option.some_inj] at h
    subst h
    exact ⟨hd, rfl⟩

theorem baseUrl_append_starts (s : String) :
    jsStartsWith (BASE_URL ++ s) "http" = true := by
  obtain ⟨l⟩ := s
  rfl

theorem baseUrl_append_ne_empty (s : String) : BASE_URL ++ s ≠ "" := by
  obtain ⟨l⟩ := s
  intro h
  have h2 : (BASE_URL ++ ⟨l⟩ : String).data = [] := by rw [h]
  rw [String.data_append, List.append_eq_nil] at h2
  exact absurd h2.1 (by decide)

theorem moonAbs_shape (m : Option String) :
    moonAbs m = none ∨
      ∃ s, moonAbs m = some s ∧ (jsStartsWith s "http" = true ∨ s = "") := by
  rcases m with _ | s
  · exact Or.inl rfl
  · by_cases hs : s = ""
    · subst hs
      refine Or.inr ⟨"", ?_, Or.inr rfl⟩
      simp only [moonAbs]
      rw [if_neg (by simp)]
    · by_cases hw : jsStartsWith s "http" = true
      · refine Or.inr ⟨s, ?_, Or.inl hw⟩
        simp only [moonAbs]
        rw [if_neg (by simp [hw])]
      · refine Or.inr ⟨BASE_URL ++ s, ?_, Or.inl (baseUrl_append_starts s)⟩
        simp only [moonAbs]
        rw [if_pos ⟨hs, by simp [hw]⟩]

theorem moonPhaseSrc_shape (cells : List Cell) :
    moonPhaseSrc cells = none ∨
      ∃ s, moonPhaseSrc cells = some s ∧ (jsStartsWith s "http" = true ∨ s = "") := by
  unfold moonPhaseSrc
  split
  · exact Or.inl rfl
  · exact moonAbs_shape (moonRaw cells)

/-! ## Concrete fixtures for counterexamples and witnesses -/

/-- The class attribute carried by primary data rows on the live page. -/
def dataRowClass : String := "tabla_mareas_fila tabla_mareas_fila_fondo1"

/-- A `<td>` none of the sub-selectors match. -/
def blankCell : Cell := {}

/-- An eight-cell data row whose day cell holds the given text. -/
def rowWithDay (d : String) : Row :=
  { className := dataRowClass
    cells := { diaNumero := some d, diaDia := some "Qui" } :: List.replicate 7 blankCell }

/-- Page with a header and a context block but no tide table. -/
def docNoTable : Document :=
  { tideTable := none
    h1Text := some "Tábua de marés de Ananindeua"
    contextText := some "Atividade alta" }

/-- An empty page. -/
def emptyDoc : Document := {}

/-! ## Claims -/

/-- C9: `normalizeToSlug` is a deterministic total function (it is a Lean
function), maps empty input to empty output, is idempotent on every string,
and maps `"São Luís"` to `"sao-luis"`. -/
theorem C9_normalizeToSlug_algebra :
    normalizeToSlug "" = "" ∧
    (∀ x : String, normalizeToSlug (normalizeToSlug x) = normalizeToSlug x) ∧
    normalizeToSlug "São Luís" = "sao-luis" :=
  ⟨rfl, fun x => normalizeToSlug_fixed (normalizeToSlug x) (slug_output_chars x),
    by decide⟩

/-- C3: a transport failure or a non-2xx response makes `getTideData` end in
the critical-failure outcome (`none`), never in a successful empty result; the
`fetchHtml` error carries the offending URL and the HTTP status when one
arrived. -/
theorem C3_fetch_failure_critical (s c url : String) (o : FetchOutcome)
    (h : fetchFails o = true) :
    getTideData s c o = none ∧
    ∃ e, fetchHtml url o = Except.error e ∧ e.url = url ∧
      (∀ st doc, o = FetchOutcome.response st doc → e.status = some st) := by
  cases o with
  | transportError msg =>
    refine ⟨?_, ⟨⟨none, url⟩, rfl, rfl, fun st doc h2 => by cases h2⟩⟩
    unfold getTideData
    split <;> rfl
  | response st doc =>
    have hok : respOk st = false := by
      simpa [fetchFails] using h
    refine ⟨?_, ⟨⟨some st, url⟩, ?_, rfl, ?_⟩⟩
    · unfold getTideData
      split
      · rfl
      · simp [fetchHtml, hok]
    · simp [fetchHtml, hok]
    · intro st2 doc2 h2
      injection h2 with h3 h4
      subst h3
      rfl

/-- C3 witness: an HTTP 404 response. -/
theorem C3_fetch_failure_critical_witness :
    fetchFails (FetchOutcome.response 404 emptyDoc) = true ∧
    (getTideData "para" "belem" (FetchOutcome.response 404 emptyDoc) = none ∧
      ∃ e, fetchHtml "https://tabuademares.com/br/para/belem"
          (FetchOutcome.response 404 emptyDoc) = Except.error e ∧
        e.url = "https://tabuademares.com/br/para/belem" ∧
        (∀ st doc, FetchOutcome.response 404 emptyDoc = FetchOutcome.response st doc →
          e.status = some st)) :=
  ⟨by decide,
    C3_fetch_failure_critical "para" "belem" "https://tabuademares.com/br/para/belem"
      (FetchOutcome.response 404 emptyDoc) (by decide)⟩

/-- C8: a row with fewer than 8 cells contributes no entry, its rejection
leaves the surrounding rows untouched, and the call as a whole still
succeeds. -/
theorem C8_short_row_skipped_nonfatal (r : Row) (h : r.cells.length < 8) :
    processRow r = none ∧
    (∀ pre post : List Row,
      (pre ++ r :: post).filterMap processRow = (pre ++ post).filterMap processRow) ∧
    (∀ (s c : String) (doc : Document), s ≠ "" → c ≠ "" →
      getTideData s c (FetchOutcome.response 200 doc) = some (scrapeDocument doc)) := by
  have h0 : processRow r = none := by
    unfold processRow
    split_ifs <;> rfl
  refine ⟨h0, ?_, ?_⟩
  · intro pre post
    simp [List.filterMap_append, List.filterMap_cons, h0]
  · intro s c doc hs hc
    unfold getTideData
    rw [if_neg (by simp [hs, hc])]
    rfl

/-- C8 witness: a seven-cell row inside a page that also has a good row. -/
theorem C8_short_row_skipped_nonfatal_witness :
    ((rowWithDay "5").cells.take 7).length < 8 ∧
    processRow { className := dataRowClass, cells := (rowWithDay "5").cells.take 7 } = none :=
  ⟨by decide,
    (C8_short_row_skipped_nonfatal
      { className := dataRowClass, cells := (rowWithDay "5").cells.take 7 }
      (by decide)).1⟩

/-- C5 (code bug): the `/^[0-9,.]+$/` height filter accepts the bare comma, so
a cell with height text `","` emits the TideEvent `{time := "01:15",
height := "."}` whose height is not a parseable non-negative decimal; the
claimed invariant requires rejecting the event instead. -/
theorem C5_height_not_decimal_emitted :
    extractTideEvent (some { mareaHora := some "01:15", mareaAltura := some "," }) =
      some { time := "01:15", height := "." } ∧
    spec_parseableNonNegDecimal "." = false ∧
    isHHMM "01:15" = true := by decide

/-- C4 counterexample: the spec's example height text `"3,2 m"` fails the
`/^[0-9,.]+$/` filter (space and unit letter), so the event is rejected
instead of being normalized to `"3.2"`; the paired time is a valid `HH:MM`. -/
theorem C4_counterexample :
    extractTideEvent (some { mareaHora := some "01:15", mareaAltura := some "3,2 m" }) =
      none ∧
    isHHMM "01:15" = true := by decide

/-- C4 (amended): when the tide cell pairs a valid `HH:MM` time with a
nonempty height text made only of digits, commas and dots, extraction
produces a TideEvent whose first comma is normalized to a dot. -/
theorem C4_amended_comma_normalized (cell : Cell) (t h : String)
    (ht : cell.mareaHora = some t) (hh : cell.mareaAltura = some h)
    (htt : isHHMM t = true) (hne : h ≠ "") (hok : heightCharsOk h = true) :
    extractTideEvent (some cell) = some { time := t, height := replaceFirstComma h } := by
  have htr : jsTrim t = t := jsTrim_eq_self_of t (no_space_of_isHHMM htt)
  have hhr : jsTrim h = h := jsTrim_eq_self_of h (no_space_of_heightCharsOk hok)
  have hhn : heightNorm (cell.mareaAltura.map jsTrim) = some (replaceFirstComma h) := by
    rw [hh]
    simp only [Option.map_some', hhr, heightNorm]
    rw [if_pos ⟨hne, hok⟩]
  simp only [extractTideEvent, ht, Option.map_some', htr, hhn]
  rw [if_pos (isHHMM_ne_empty htt), if_pos htt]

/-- C4 witness: height text `"3,2"` with time `"0:49"`. -/
theorem C4_amended_comma_normalized_witness :
    isHHMM "0:49" = true ∧ ("3,2" : String) ≠ "" ∧ heightCharsOk "3,2" = true ∧
    extractTideEvent (some { mareaHora := some "0:49", mareaAltura := some "3,2" }) =
      some { time := "0:49", height := replaceFirstComma "3,2" } :=
  ⟨by decide, by decide, by decide,
    C4_amended_comma_normalized { mareaHora := some "0:49", mareaAltura := some "3,2" }
      "0:49" "3,2" rfl rfl (by decide) (by decide) (by decide)⟩

/-- C1 counterexample: with the table absent but a context block present, the
early return carries the header yet hard-codes `pageContextText` to `null`
instead of the locatable context text. -/
theorem C1_counterexample :
    (scrapeDocument docNoTable).dailyTides = [] ∧
    (scrapeDocument docNoTable).locationHeader = some "Tábua de marés de Ananindeua" ∧
    docNoTable.contextText = some "Atividade alta" ∧
    (scrapeDocument docNoTable).pageContextText = none := by decide

/-- C1 (amended): when the table region is absent, has no body, or has zero
matching data rows, `getTideData` still succeeds with an empty `dailyTides`
carrying the located header — but `pageContextText` is always `null` on these
paths, even when a context block is present. -/
theorem C1_no_data_success (s c : String) (doc : Document) (hs : s ≠ "") (hc : c ≠ "")
    (h : tableRows doc = none ∨ tableRows doc = some []) :
    getTideData s c (FetchOutcome.response 200 doc) =
      some { dailyTides := [], pageContextText := none,
             locationHeader := doc.h1Text.map jsTrim } := by
  unfold getTideData
  rw [if_neg (by simp [hs, hc])]
  have hfetch : fetchHtml (mkUrl s c) (FetchOutcome.response 200 doc) = Except.ok doc := rfl
  rw [hfetch]
  obtain ⟨tT, tC, tH, tX⟩ := doc
  rcases tT with _ | t
  · rfl
  · rcases t with ⟨tb?⟩
    rcases tb? with _ | tb
    · rfl
    · have hrows : filteredRows tb = [] := by
        rcases h with h | h
        · simp [tableRows] at h
        · simpa [tableRows] using h
      simp [scrapeDocument, hrows]

/-- C1 witness: a page with a header, a context block and no table. -/
theorem C1_no_data_success_witness :
    ("para" : String) ≠ "" ∧ ("ananindeua" : String) ≠ "" ∧
    (tableRows docNoTable = none ∨ tableRows docNoTable = some []) ∧
    getTideData "para" "ananindeua" (FetchOutcome.response 200 docNoTable) =
      some { dailyTides := [], pageContextText := none,
             locationHeader := docNoTable.h1Text.map jsTrim } :=
  ⟨by decide, by decide, Or.inl rfl,
    C1_no_data_success "para" "ananindeua" docNoTable (by decide) (by decide) (Or.inl rfl)⟩

/-- A data row extractable by `processRow` (day 1, one valid tide). -/
def rowDay1 : Row :=
  { className := dataRowClass
    cells := [{ diaNumero := some "1", diaDia := some "Qui" }, blankCell, blankCell,
      { mareaHora := some "01:15", mareaAltura := some "3,2" }, blankCell, blankCell,
      blankCell, blankCell] }

/-- A table body holding `rowDay1`. -/
def classOnlyBody : Tbody := { trs := [rowDay1] }

/-- Page whose tide table carries the class-marked layout but does not sit at
the positional selector's path. -/
def docClassOnly : Document :=
  { tideTable := none, classMarkedTable := some { tbody := some classOnlyBody } }

/-- C2 counterexample: a page laying the tide table out only under the
class-based layout has extractable data rows, yet the locator — wired to the
single positional selector — finds nothing and `dailyTides` is empty. -/
theorem C2_counterexample :
    docClassOnly.tideTable = none ∧
    docClassOnly.classMarkedTable = some { tbody := some classOnlyBody } ∧
    ((filteredRows classOnlyBody).filterMap processRow).length = 1 ∧
    (scrapeDocument docClassOnly).dailyTides = [] := by decide

/-- C2 (amended): the locator consults only the positional selector; the
presence of a class-marked table never changes the result, and when the
positional selector misses, `dailyTides` is empty — there is no fallback
chain. -/
theorem C2_single_positional_selector (doc : Document) (m : Option Table)
    (h : doc.tideTable = none) :
    scrapeDocument { doc with classMarkedTable := m } = scrapeDocument doc ∧
    (scrapeDocument doc).dailyTides = [] := by
  constructor
  · rfl
  · obtain ⟨tT, tC, tH, tX⟩ := doc
    simp only at h
    subst h
    rfl

/-- C2 witness: the class-only page. -/
theorem C2_single_positional_selector_witness :
    docClassOnly.tideTable = none ∧
    (scrapeDocument { docClassOnly with classMarkedTable := none } =
        scrapeDocument docClassOnly ∧
      (scrapeDocument docClassOnly).dailyTides = []) :=
  ⟨rfl, C2_single_positional_selector docClassOnly none rfl⟩

/-- A seven-cell row whose day token parses. -/
def row7Day5 : Row :=
  { className := dataRowClass
    cells := { diaNumero := some "5" } :: List.replicate 6 blankCell }

/-- C6 counterexample: a seven-cell row with a perfectly parseable day token
is still rejected, so emission is not equivalent to day-token parsing. -/
theorem C6_counterexample :
    row7Day5.cells.length = 7 ∧
    parsedDay row7Day5.cells = some 5 ∧
    processRow row7Day5 = none := by decide

/-- C6 (amended): among rows passing the structural filters (not a
secondary/continuation row, at least 8 cells), an entry is emitted exactly
when the day-of-month token parses, regardless of the other sub-fields. -/
theorem C6_day_parse_decides (row : Row) (h1 : isSecondaryRow row = false)
    (h2 : 8 ≤ row.cells.length) :
    (processRow row).isSome = (parsedDay row.cells).isSome := by
  unfold processRow
  rw [if_neg (by simp [h1]), if_neg (by omega)]
  cases hp : parsedDay row.cells <;> rfl

/-- C6 witness: an eight-cell row with day `"1"` and every other sub-field
absent. -/
theorem C6_day_parse_decides_witness :
    isSecondaryRow (rowWithDay "1") = false ∧ 8 ≤ (rowWithDay "1").cells.length ∧
    (processRow (rowWithDay "1")).isSome = (parsedDay (rowWithDay "1").cells).isSome :=
  ⟨by decide, by decide, C6_day_parse_decides (rowWithDay "1") (by decide) (by decide)⟩

/-- Page with a single data row whose day cell reads `"45"`. -/
def doc45 : Document :=
  { tideTable := some { tbody := some { trs := [rowWithDay "45"] } } }

/-- C7 counterexample: the day token `"45"` is emitted unchanged, outside the
claimed 1–31 range. -/
theorem C7_counterexample :
    ((scrapeDocument doc45).dailyTides.map DailyTideInfo.dayOfMonth) = [45] ∧
    ¬(1 ≤ (45 : Int) ∧ (45 : Int) ≤ 31) := by decide

/-- C7 (amended): every emitted entry's `dayOfMonth` is exactly the
successfully parsed integer of its row's day token — no 1–31 range check is
applied. -/
theorem C7_day_is_parsed_token (doc : Document) (info : DailyTideInfo)
    (h : info ∈ (scrapeDocument doc).dailyTides) :
    ∃ row, processRow row = some info ∧ parsedDay row.cells = some info.dayOfMonth := by
  obtain ⟨row, hrow⟩ := exists_row_of_mem_dailyTides h
  exact ⟨row, hrow, (processRow_some_fields hrow).1⟩

/-- The entry the day-45 page produces. -/
def info45 : DailyTideInfo :=
  { dayOfMonth := 45, dayOfWeek := "Qui", moonPhaseIconSrc := none,
    sunriseTime := none, sunsetTime := none, tide1 := none, tide2 := none,
    tide3 := none, tide4 := none, coefficient := none }

/-- C7 witness: the day-45 page. -/
theorem C7_day_is_parsed_token_witness :
    info45 ∈ (scrapeDocument doc45).dailyTides ∧
    ∃ row, processRow row = some info45 ∧ parsedDay row.cells = some info45.dayOfMonth :=
  ⟨by decide, C7_day_is_parsed_token doc45 info45 (by decide)⟩

/-- A data row whose moon image carries an empty `src` attribute. -/
def rowEmptyImgSrc : Row :=
  { className := dataRowClass
    cells := [{ diaNumero := some "1" }, { imgSrc := some (some "") }, blankCell,
      blankCell, blankCell, blankCell, blankCell, blankCell] }

/-- Page holding `rowEmptyImgSrc`. -/
def docEmptyImgSrc : Document :=
  { tideTable := some { tbody := some { trs := [rowEmptyImgSrc] } } }

/-- C10 counterexample: an `<img src="">` (and no icon span) leaks the empty
string into `moonPhaseIconSrc` — neither `null` nor an absolute URL. -/
theorem C10_counterexample :
    ((scrapeDocument docEmptyImgSrc).dailyTides.map DailyTideInfo.moonPhaseIconSrc) =
      [some ""] ∧
    jsStartsWith "" "http" = false := by decide

/-- C10 (amended): every emitted `moonPhaseIconSrc` is `null`, or starts with
`"http"` (kept absolute sources and base-URL-prefixed relative ones), or is
the empty string leaked from an empty `src` attribute. -/
theorem C10_moon_src_absolute_or_empty (doc : Document) (info : DailyTideInfo)
    (h : info ∈ (scrapeDocument doc).dailyTides) :
    info.moonPhaseIconSrc = none ∨
      ∃ s, info.moonPhaseIconSrc = some s ∧ (jsStartsWith s "http" = true ∨ s = "") := by
  obtain ⟨row, hrow⟩ := exists_row_of_mem_dailyTides h
  rw [(processRow_some_fields hrow).2]
  exact moonPhaseSrc_shape row.cells

/-- A data row whose moon image has a relative source path. -/
def rowRelImg : Row :=
  { className := dataRowClass
    cells := [{ diaNumero := some "2" }, { imgSrc := some (some "/img/luna.png") },
      blankCell, blankCell, blankCell, blankCell, blankCell, blankCell] }

/-- Page holding `rowRelImg`. -/
def docRelImg : Document :=
  { tideTable := some { tbody := some { trs := [rowRelImg] } } }

/-- The entry the relative-image page produces. -/
def infoRelImg : DailyTideInfo :=
  { dayOfMonth := 2, dayOfWeek := "",
    moonPhaseIconSrc := some "https://tabuademares.com/img/luna.png",
    sunriseTime := none, sunsetTime := none, tide1 := none, tide2 := none,
    tide3 := none, tide4 := none, coefficient := none }

/-- C10 witness: a relative moon-image source gets the base URL prefixed. -/
theorem C10_moon_src_absolute_or_empty_witness :
    infoRelImg ∈ (scrapeDocument docRelImg).dailyTides ∧
    (infoRelImg.moonPhaseIconSrc = none ∨
      ∃ s, infoRelImg.moonPhaseIconSrc = some s ∧
        (jsStartsWith s "http" = true ∨ s = "")) :=
  ⟨by decide, C10_moon_src_absolute_or_empty docRelImg infoRelImg (by decide)⟩
